import Mathlib

/-!
Verification of the MedicalYOLO annotation-conversion and dataset-preparation
pipeline.

This file shallowly embeds the Python sources of the repository:

* `scripts/data_processing/converters/coco_to_yolo.py` (pipeline converter),
* `coco_to_yolo.py` (standalone script),
* `scripts/data_processing/converters/pascal_voc_to_yolo.py`,
* `scripts/data_processing/converters/labelme_to_yolo.py`,
* `scripts/data_processing/core/dataset_splitter.py`,
* `scripts/data_processing/cli/split_cmd.py` (`validate_ratios`),
* `utils/dataset_validation.py` (`verify_dataset_config`),

and proves or refutes the specification claims about them.  Python floats
are embedded as exact rationals (`ℚ`); Python `int()` truncation, list
slicing, string splitting, and numeric-literal parsing are modelled by the
`py*` helpers below.  The filesystem is abstracted: a converter receives
the list of per-file parse outcomes (`Except` models a raised parse error)
and returns the association list of files it would write, with contents.

Rational arithmetic inside the embedding is expressed through the wrappers
`fadd`, `fsub`, `fmul`, `fdiv`, `fneg`, `fabs` (defined via `Rat.divInt` on
numerators and denominators, so that concrete runs of the embedded code
evaluate by `decide`); the lemmas `fadd_eq` … `fabs_eq` identify them with
the ordinary field operations on `ℚ`.
-/

/-- Addition on `ℚ` via `Rat.divInt` (kernel-reducible). -/
def fadd (a b : ℚ) : ℚ := Rat.divInt (a.num * b.den + b.num * a.den) (a.den * b.den)

/-- Subtraction on `ℚ` via `Rat.divInt` (kernel-reducible). -/
def fsub (a b : ℚ) : ℚ := Rat.divInt (a.num * b.den - b.num * a.den) (a.den * b.den)

/-- Multiplication on `ℚ` via `Rat.divInt` (kernel-reducible). -/
def fmul (a b : ℚ) : ℚ := Rat.divInt (a.num * b.num) (a.den * b.den)

/-- Division on `ℚ` via `Rat.divInt` (kernel-reducible). -/
def fdiv (a b : ℚ) : ℚ := Rat.divInt (a.num * b.den) (a.den * b.num)

/-- Negation on `ℚ` via `Rat.divInt` (kernel-reducible). -/
def fneg (a : ℚ) : ℚ := Rat.divInt (-a.num) a.den

/-- Absolute value on `ℚ` (kernel-reducible). -/
def fabs (a : ℚ) : ℚ := if a < 0 then fneg a else a

lemma den_intCast_ne (a : ℚ) : ((a.den : ℤ)) ≠ 0 :=
  Int.natCast_ne_zero.mpr a.den_nz

lemma fadd_eq (a b : ℚ) : fadd a b = a + b := by
  conv_rhs => rw [← Rat.num_divInt_den a, ← Rat.num_divInt_den b]
  rw [fadd, Rat.divInt_add_divInt _ _ (den_intCast_ne a) (den_intCast_ne b)]

lemma fsub_eq (a b : ℚ) : fsub a b = a - b := by
  conv_rhs => rw [← Rat.num_divInt_den a, ← Rat.num_divInt_den b]
  rw [fsub, Rat.divInt_sub_divInt _ _ (den_intCast_ne a) (den_intCast_ne b)]

lemma fmul_eq (a b : ℚ) : fmul a b = a * b := by
  conv_rhs => rw [← Rat.num_divInt_den a, ← Rat.num_divInt_den b]
  rw [fmul, Rat.divInt_mul_divInt']

lemma fdiv_eq (a b : ℚ) : fdiv a b = a / b := (Rat.div_def' a b).symm

lemma fneg_eq (a : ℚ) : fneg a = -a := (Rat.neg_def a).symm

lemma fabs_eq (a : ℚ) : fabs a = |a| := by
  rw [fabs]
  split
  · rw [fneg_eq, abs_of_neg (by assumption)]
  · rw [abs_of_nonneg (le_of_not_lt (by assumption))]

/-- Python `int(q)` for a real value: truncation toward zero
(`⌈q⌉ = -⌊-q⌋` for negative values). -/
def pyTrunc (q : ℚ) : ℤ := if 0 ≤ q then ⌊q⌋ else -⌊fneg q⌋

lemma pyTrunc_eq (q : ℚ) : pyTrunc q = if 0 ≤ q then ⌊q⌋ else ⌈q⌉ := by
  rw [pyTrunc, fneg_eq, ← Int.ceil_neg, neg_neg]

/-- Normalisation of one Python slice index against a list of length `n`:
negative indices count from the end, and the result is clamped to `[0, n]`. -/
def pyIdx (n : ℕ) (i : ℤ) : ℕ := if i < 0 then (i + n).toNat else min i.toNat n

/-- Python `l[a:b]` (step 1). -/
def pySlice {α : Type} (l : List α) (a b : ℤ) : List α :=
  (l.take (pyIdx l.length b)).drop (pyIdx l.length a)

/-- Python `l[a:]`. -/
def pySliceFrom {α : Type} (l : List α) (a : ℤ) : List α :=
  l.drop (pyIdx l.length a)

/-- Left-pad a string with zeros to width `w`. -/
def padZeros (w : ℕ) (s : String) : String :=
  String.mk (List.replicate (w - s.length) '0') ++ s

/-- Python fixed formatting `f"{q:.6f}"` for a value that is an exact
multiple of `10 ^ (-6)` (every value this development formats is): the
number printed with exactly six fractional digits.  (For such values no
rounding occurs, so the floor is exact.) -/
def formatFixed6 (q : ℚ) : String :=
  let n : ℤ := ⌊fmul q 1000000⌋
  let sgn := if n < 0 then "-" else ""
  let m : ℕ := n.natAbs
  sgn ++ toString (m / 1000000) ++ "." ++ padZeros 6 (toString (m % 1000000))

/-- The successive decimal digits of a fractional part, up to `k` digits,
stopping when the remainder is zero. -/
def fracDigits : ℕ → ℚ → List ℕ
  | 0, _ => []
  | k + 1, f =>
    if f = 0 then []
    else (⌊fmul f 10⌋).toNat :: fracDigits k (fsub (fmul f 10) ((⌊fmul f 10⌋ : ℤ) : ℚ))

/-- Python `str(x)` for a float whose value has an exact decimal expansion of
at most 17 digits: for such values the CPython shortest round-trip `repr` is
exactly the decimal expansion, with at least one fractional digit
(`str(8.0) = "8.0"`).  Used only on such values. -/
def pyFloatStr (q : ℚ) : String :=
  let sgn := if q < 0 then "-" else ""
  let m := fabs q
  let ds := fracDigits 17 (fsub m ((⌊m⌋ : ℤ) : ℚ))
  sgn ++ toString (⌊m⌋).toNat ++ "." ++
    (if ds.isEmpty then "0" else String.join (ds.map toString))

/-- Split a character list at every separator (kept groups may be empty),
like Python `s.split(sep)`. -/
def splitCharsP (p : Char → Bool) : List Char → List (List Char)
  | [] => [[]]
  | c :: rest =>
    match splitCharsP p rest with
    | [] => [[]]
    | g :: gs => if p c then [] :: g :: gs else (c :: g) :: gs

/-- String splitting on a character predicate (kernel-reducible). -/
def splitString (p : Char → Bool) (s : String) : List String :=
  (splitCharsP p s.data).map String.mk

/-- Concatenate with a separator (Python `sep.join(parts)`). -/
def joinSep (sep : String) : List String → String
  | [] => ""
  | [x] => x
  | x :: rest => x ++ sep ++ joinSep sep rest

/-- Python `s.strip()`: drop leading and trailing whitespace. -/
def pyStrip (s : String) : String :=
  String.mk (((s.data.dropWhile Char.isWhitespace).reverse.dropWhile
    Char.isWhitespace).reverse)

/-- Python `pathlib.Path(name).stem` for a plain file name: the name with
its last dot-suffix removed. -/
def pathStem (s : String) : String :=
  let parts := splitString (fun c => c = '.') s
  if parts.length ≤ 1 then s else joinSep "." parts.dropLast

/-- Python `line.split()`: split on whitespace runs, dropping empty pieces. -/
def pySplitWs (line : String) : List String :=
  (splitString (fun c => c.isWhitespace) line).filter (fun t => t ≠ "")

/-- Numeric value of a decimal digit character. -/
def digitVal (c : Char) : ℕ := c.toNat - '0'.toNat

/-- Value of a list of decimal digit characters. -/
def natOfDigits (cs : List Char) : ℕ :=
  cs.foldl (fun a c => a * 10 + digitVal c) 0

/-- Parse a nonempty all-digit character list. -/
def digitsToNat? (cs : List Char) : Option ℕ :=
  if cs ≠ [] ∧ cs.all Char.isDigit then some (natOfDigits cs) else none

/-- Python `int(s)` on a whitespace-free character list: optional sign,
then a nonempty digit run. -/
def pyParseIntChars (cs : List Char) : Option ℤ :=
  match cs with
  | '-' :: rest => (digitsToNat? rest).map (fun n => -(n : ℤ))
  | '+' :: rest => (digitsToNat? rest).map (fun n => (n : ℤ))
  | ds => (digitsToNat? ds).map (fun n => (n : ℤ))

/-- Python `int(s)` on a whitespace-free token. -/
def pyParseInt (s : String) : Option ℤ := pyParseIntChars s.data

/-- Powers `10 ^ k` as a rational (kernel-reducible). -/
def fpow10n (k : ℕ) : ℚ := Rat.divInt ((10 : ℤ) ^ k) 1

/-- Powers `10 ^ e` for an integer exponent (kernel-reducible). -/
def fpow10 (e : ℤ) : ℚ :=
  if 0 ≤ e then Rat.divInt ((10 : ℤ) ^ e.toNat) 1
  else Rat.divInt 1 ((10 : ℤ) ^ (-e).toNat)

/-- Unsigned decimal mantissa `ddd`, `ddd.ddd`, `.ddd` or `ddd.` with at
least one digit overall. -/
def pyParseMantissaChars (cs : List Char) : Option ℚ :=
  match splitCharsP (fun c => c = '.') cs with
  | [ip] => (digitsToNat? ip).map (fun n => ((n : ℤ) : ℚ))
  | [ip, fp] =>
    if ip.all Char.isDigit ∧ fp.all Char.isDigit ∧ (ip ≠ [] ∨ fp ≠ []) then
      some (fadd ((natOfDigits ip : ℤ) : ℚ)
        (fdiv ((natOfDigits fp : ℤ) : ℚ) (fpow10n fp.length)))
    else none
  | _ => none

/-- Apply a parser after stripping an optional leading sign. -/
def pySignedChars (f : List Char → Option ℚ) (cs : List Char) : Option ℚ :=
  match cs with
  | '-' :: rest => (f rest).map (fun q => fneg q)
  | '+' :: rest => f rest
  | _ => f cs

/-- Python `float(s)` on a whitespace-free token denoting a finite decimal
literal (optionally with an `e`/`E` exponent).  The non-finite literals
`inf` and `nan` have no rational value and are rejected; on the label
tokens this development checks, both a rejected token and a non-finite
value yield a validator violation, so the distinction is immaterial. -/
def pyParseFloat (s : String) : Option ℚ :=
  match splitCharsP (fun c => c = 'e' ∨ c = 'E') s.data with
  | [m] => pySignedChars pyParseMantissaChars m
  | [m, ex] =>
    match pySignedChars pyParseMantissaChars m, pyParseIntChars ex with
    | some mv, some ev => some (fmul mv (fpow10 ev))
    | _, _ => none
  | _ => none

/-- Python `list(map(float, parts))`: all-or-nothing parsing (the first
failure raises). -/
def parseFloats : List String → Option (List ℚ)
  | [] => some []
  | s :: rest =>
    match pyParseFloat s, parseFloats rest with
    | some q, some qs => some (q :: qs)
    | _, _ => none

/-! ## Bounding-box normalisation

`CocoToYoloConverter._convert_bbox_to_yolo` (corner box `(x, y, w, h)`), and
the identical corner-pair rule `(xmin, ymin, xmax, ymax)` shared verbatim by
`PascalVocToYoloConverter._convert_bbox_to_yolo` and
`LabelmeToYoloConverter._convert_bbox_to_yolo`. -/

/-- Embeds `CocoToYoloConverter._convert_bbox_to_yolo`:
`x_center = (x + w/2) / W`, `y_center = (y + h/2) / H`,
`width = w / W`, `height = h / H`. -/
def convert_bbox_to_yolo (bbox : ℚ × ℚ × ℚ × ℚ) (W H : ℚ) : List ℚ :=
  let (x, y, w, h) := bbox
  [fdiv (fadd x (fdiv w 2)) W, fdiv (fadd y (fdiv h 2)) H, fdiv w W, fdiv h H]

/-- The corner-pair rule of the Pascal VOC and LabelMe converters
(`_convert_bbox_to_yolo`, identical in both files). -/
def corner_pair_to_yolo (bbox : ℚ × ℚ × ℚ × ℚ) (W H : ℚ) : List ℚ :=
  let (xmin, ymin, xmax, ymax) := bbox
  [fdiv (fdiv (fadd xmin xmax) 2) W, fdiv (fdiv (fadd ymin ymax) 2) H,
    fdiv (fsub xmax xmin) W, fdiv (fsub ymax ymin) H]

/-- Modelled from the spec: the corner-box normalisation rule as §4.3 states
it, `x_center = (x + w/2)/W`, `y_center = (y + h/2)/H`, `width = w/W`,
`height = h/H`; compared against the `convert_bbox_to_yolo` of the code. -/
def normalizeCornerBoxSpec (x y w h W H : ℚ) : List ℚ :=
  [(x + w / 2) / W, (y + h / 2) / H, w / W, h / H]

/-- C6: for every corner box and positive image size, the bbox
normalisation returns exactly the four values the spec prescribes. -/
theorem convert_bbox_to_yolo_matches_spec (x y w h W H : ℚ)
    (hW : 0 < W) (hH : 0 < H) :
    convert_bbox_to_yolo (x, y, w, h) W H = normalizeCornerBoxSpec x y w h W H := by
  simp [convert_bbox_to_yolo, normalizeCornerBoxSpec, fadd_eq, fdiv_eq]

/-- Witness for C6 at the concrete scenario box. -/
theorem convert_bbox_to_yolo_matches_spec_witness :
    convert_bbox_to_yolo (10, 10, 20, 20) 100 100 =
      normalizeCornerBoxSpec 10 10 20 20 100 100 :=
  convert_bbox_to_yolo_matches_spec 10 10 20 20 100 100 (by norm_num) (by norm_num)

/-- C7: normalising a corner box and then denormalising recovers the box
exactly under exact rational arithmetic. -/
theorem convert_bbox_to_yolo_roundtrip (x y w h W H : ℚ)
    (hW : 0 < W) (hH : 0 < H) (xc yc wn hn : ℚ)
    (hconv : convert_bbox_to_yolo (x, y, w, h) W H = [xc, yc, wn, hn]) :
    xc * W - (wn * W) / 2 = x ∧ yc * H - (hn * H) / 2 = y ∧
      wn * W = w ∧ hn * H = h := by
  have hW0 : W ≠ 0 := ne_of_gt hW
  have hH0 : H ≠ 0 := ne_of_gt hH
  simp only [convert_bbox_to_yolo, fadd_eq, fdiv_eq, List.cons.injEq, and_true] at hconv
  obtain ⟨h1, h2, h3, h4⟩ := hconv
  subst h1; subst h2; subst h3; subst h4
  refine ⟨?_, ?_, ?_, ?_⟩ <;> field_simp <;> ring

/-- Witness for C7 at the concrete scenario box. -/
theorem convert_bbox_to_yolo_roundtrip_witness :
    (1 : ℚ) / 5 * 100 - ((1 : ℚ) / 5 * 100) / 2 = 10 ∧
      (1 : ℚ) / 5 * 100 - ((1 : ℚ) / 5 * 100) / 2 = 10 ∧
      (1 : ℚ) / 5 * 100 = 20 ∧ (1 : ℚ) / 5 * 100 = 20 :=
  convert_bbox_to_yolo_roundtrip 10 10 20 20 100 100 (by norm_num) (by norm_num)
    (1 / 5) (1 / 5) (1 / 5) (1 / 5)
    (by simp [convert_bbox_to_yolo, fadd_eq, fdiv_eq]; norm_num)

/-! ## COCO data model and the two COCO-to-YOLO implementations -/

/-- One entry of a COCO `images` array. -/
structure CocoImage where
  id : ℤ
  file_name : String
  width : ℚ
  height : ℚ
deriving DecidableEq

/-- One entry of a COCO `categories` array. -/
structure CocoCategory where
  id : ℤ
  name : String
deriving DecidableEq

/-- One entry of a COCO `annotations` array (bbox `(x_min, y_min, w, h)`). -/
structure CocoAnn where
  image_id : ℤ
  category_id : ℤ
  bbox : ℚ × ℚ × ℚ × ℚ
deriving DecidableEq

/-- A parsed COCO JSON document. -/
structure CocoData where
  images : List CocoImage
  annotations : List CocoAnn
  categories : List CocoCategory
deriving DecidableEq

/-- The standalone script `coco_to_yolo.py`: for every image (in input
order; image ids assumed distinct, as a Python dict keyed by id would
otherwise keep only the last record), one `<stem>.txt` whose content is the
newline-join of one line per annotation of that image, each line
`f"{cat_id - 1} {xc:.6f} {yc:.6f} {w:.6f} {h:.6f}"` (note the `- 1`:
`yolo_cat_id = cat_id - 1`).  Images without annotations yield an empty
content. -/
def coco_to_yolo (d : CocoData) : List (String × String) :=
  d.images.map (fun img =>
    let anns := d.annotations.filter (fun a => a.image_id = img.id)
    let lines := anns.map (fun a =>
      let (x, y, w, h) := a.bbox
      let xc := fdiv (fadd x (fdiv w 2)) img.width
      let yc := fdiv (fadd y (fdiv h 2)) img.height
      let wn := fdiv w img.width
      let hn := fdiv h img.height
      toString (a.category_id - 1) ++ " " ++ formatFixed6 xc ++ " " ++
        formatFixed6 yc ++ " " ++ formatFixed6 wn ++ " " ++ formatFixed6 hn)
    (pathStem img.file_name ++ ".txt", joinSep "\n" lines))

/-- One step of `CocoToYoloConverter._load_coco_annotations`: merge one
parsed file into the accumulated data.  New category names get fresh
sequential ids (`next_category_id` equals the number of names seen, so ids
are `0, 1, ...` in first-seen order); the category id of each annotation is
rewritten to the merged id of the name of its category, found among the
categories of this file; an annotation whose original id matches no category, or whose
category name is the empty string (falsy in `if cat_name:`), is dropped. -/
def mergeStep (acc : CocoData) (d : CocoData) : CocoData :=
  let cats := d.categories.foldl (fun cs c =>
    if cs.any (fun c0 => c0.name = c.name) then cs
    else cs ++ [⟨(cs.length : ℤ), c.name⟩]) acc.categories
  let anns := d.annotations.filterMap (fun a =>
    match d.categories.find? (fun c => c.id = a.category_id) with
    | none => none
    | some c =>
      if c.name = "" then none
      else
        match cats.find? (fun mc => mc.name = c.name) with
        | none => none
        | some mc => some { a with category_id := mc.id })
  ⟨acc.images ++ d.images, acc.annotations ++ anns, cats⟩

/-- Recursion of `_load_coco_annotations` over the per-file parse outcomes:
a parse failure is logged and then re-raised, aborting the whole merge. -/
def loadMerge : CocoData → List (Except String CocoData) → Except String CocoData
  | acc, [] => .ok acc
  | _, .error e :: _ => .error e
  | acc, .ok d :: rest => loadMerge (mergeStep acc d) rest

/-- Embeds `CocoToYoloConverter._load_coco_annotations` on a list of per-file
parse outcomes. -/
def load_coco_annotations (files : List (Except String CocoData)) :
    Except String CocoData :=
  loadMerge ⟨[], [], []⟩ files

/-- Append `v` to the content of file `k` in an association list of written
files, creating the file if absent (Python append-mode `open`). -/
def appendLine (m : List (String × String)) (k v : String) :
    List (String × String) :=
  if m.any (fun p => p.1 = k) then
    m.map (fun p => if p.1 = k then (p.1, p.2 ++ v) else p)
  else m ++ [(k, v)]

/-- The annotation loop of `CocoToYoloConverter.convert` on merged data:
iterate over the annotations (not the images); skip an annotation whose
image id is unknown (a dict lookup keeps the last image per id); append the
space-joined `str` line (`category_id` then the four coordinates, with a
trailing newline) to the per-image
`<stem>.txt`. -/
def cocoConvertMerged (d : CocoData) : List (String × String) :=
  d.annotations.foldl (fun acc a =>
    match d.images.reverse.find? (fun im => im.id = a.image_id) with
    | none => acc
    | some im =>
      let yb := convert_bbox_to_yolo a.bbox im.width im.height
      let line := toString a.category_id ++ " " ++
        joinSep " " (yb.map pyFloatStr) ++ "\n"
      appendLine acc (pathStem im.file_name ++ ".txt") line) []

/-- Embeds `CocoToYoloConverter.convert` (with the automatic category mapping,
`class_mapping=None`): merge the parsed input files, then write one label
file per annotated image; an unparsable input file aborts the conversion. -/
def CocoToYoloConverter_convert (files : List (Except String CocoData)) :
    Except String (List (String × String)) :=
  (load_coco_annotations files).map cocoConvertMerged

/-- The concrete scenario of the spec: two images (`img1.jpg` 100×100,
`img2.jpg` 200×100), one category `tumor` with id 0, one annotation per
image (`bbox = [10,10,20,20]` on img1, `bbox = [50,25,50,25]` on img2). -/
def cocoScenario : CocoData :=
  ⟨[⟨1, "img1.jpg", 100, 100⟩, ⟨2, "img2.jpg", 200, 100⟩],
    [⟨1, 0, (10, 10, 20, 20)⟩, ⟨2, 0, (50, 25, 50, 25)⟩],
    [⟨0, "tumor"⟩]⟩

/-- C1 counterexample: on the concrete scenario of the spec, neither COCO-to-YOLO
implementation writes the claimed line
`"0 0.200000 0.200000 0.200000 0.200000"` for img1: the pipeline converter
writes the correct class id 0 but formats the coordinates with Python
`str()` (`"0 0.2 0.2 0.2 0.2"`), while the standalone script uses fixed
6-decimal formatting but writes class id `category_id - 1 = -1`. -/
theorem coco_scenario_claimed_line_false :
    ((CocoToYoloConverter_convert [Except.ok cocoScenario]).toOption.getD
        []).lookup "img1.txt" ≠ some "0 0.200000 0.200000 0.200000 0.200000" ∧
    ((CocoToYoloConverter_convert [Except.ok cocoScenario]).toOption.getD
        []).lookup "img1.txt" ≠ some ("0 0.200000 0.200000 0.200000 0.200000" ++ "\n") ∧
    (coco_to_yolo cocoScenario).lookup "img1.txt" ≠
      some "0 0.200000 0.200000 0.200000 0.200000" := by
  refine ⟨?_, ?_, ?_⟩ <;> decide

/-- C1 (amended): on the concrete scenario the pipeline converter writes
`"0 0.2 0.2 0.2 0.2"` / `"0 0.375 0.375 0.25 0.25"` (class id 0 from the
first-seen merge, coordinates via Python `str`, no fixed 6-decimal
formatting), and the standalone script writes
`"-1 0.200000 0.200000 0.200000 0.200000"` /
`"-1 0.375000 0.375000 0.250000 0.250000"` (fixed 6-decimal coordinates,
class id `category_id - 1`). -/
theorem coco_scenario_actual_output :
    CocoToYoloConverter_convert [Except.ok cocoScenario] =
      Except.ok [("img1.txt", "0 0.2 0.2 0.2 0.2\n"),
        ("img2.txt", "0 0.375 0.375 0.25 0.25\n")] ∧
    coco_to_yolo cocoScenario =
      [("img1.txt", "-1 0.200000 0.200000 0.200000 0.200000"),
        ("img2.txt", "-1 0.375000 0.375000 0.250000 0.250000")] :=
  ⟨by rfl, by decide⟩

/-! ## Pascal VOC and LabelMe converters -/

/-- Insert into a sorted list of strings. -/
def insertSorted (x : String) : List String → List String
  | [] => [x]
  | y :: ys => if x ≤ y then x :: y :: ys else y :: insertSorted x ys

/-- Python `sorted(...)` on strings (insertion sort). -/
def sortStrings (l : List String) : List String := l.foldr insertSorted []

/-- One `object` element of a Pascal VOC XML file. -/
structure VocObject where
  name : String
  bbox : ℚ × ℚ × ℚ × ℚ
  difficult : ℤ
  truncated : ℤ
deriving DecidableEq

/-- A parsed Pascal VOC XML file (`size` block plus objects). -/
structure VocFile where
  width : ℚ
  height : ℚ
  objects : List VocObject
deriving DecidableEq

/-- First pass of `PascalVocToYoloConverter.convert`: collect the class
names over the files that parse (`sorted(all_classes)` of a set: sorted
deduplicated names), and enumerate them (`{name: idx for idx, name in
enumerate(sorted(all_classes))}`). -/
def vocClassMapping (inputs : List (String × Except String VocFile)) : List (String × ℕ) :=
  let all := (inputs.filterMap (fun p => p.2.toOption)).flatMap
    (fun f => f.objects.map (fun ob => ob.name))
  (sortStrings all.dedup).enum.map (fun p => (p.2, p.1))

/-- The per-file annotation loop of `PascalVocToYoloConverter.convert`:
skip `difficult` objects unless requested, skip unknown class names, and
emit the space-joined `str` line (`class_id` then the four coordinates). -/
def vocFileLines (mapping : List (String × ℕ)) (incDiff : Bool)
    (f : VocFile) : List String :=
  f.objects.filterMap (fun ob =>
    if incDiff = false ∧ ob.difficult ≠ (0 : ℤ) then none
    else
      match mapping.find? (fun p => p.1 = ob.name) with
      | none => none
      | some p =>
        some (toString p.2 ++ " " ++
          joinSep " " ((corner_pair_to_yolo ob.bbox f.width f.height).map pyFloatStr)))

/-- Embeds `PascalVocToYoloConverter.convert` (auto mapping, i.e.
`class_mapping=None`): every file that parses yields `<stem>.txt` — joined
lines plus a trailing newline when nonempty, an empty file
(`txt_path.touch()`) otherwise; a file whose parse raises is skipped with
an error logged and the loop continues. -/
def PascalVocToYoloConverter_convert (inputs : List (String × Except String VocFile))
    (incDiff : Bool) : List (String × String) :=
  let mapping := vocClassMapping inputs
  inputs.filterMap (fun p =>
    match p.2 with
    | .error _ => none
    | .ok f =>
      let ls := vocFileLines mapping incDiff f
      some (p.1 ++ ".txt", if ls.isEmpty then "" else joinSep "\n" ls ++ "\n"))

/-- One shape of a LabelMe JSON file. -/
structure LmShape where
  label : String
  shape_type : String
  points : List (ℚ × ℚ)
deriving DecidableEq

/-- A parsed LabelMe JSON file. -/
structure LmFile where
  width : ℚ
  height : ℚ
  shapes : List LmShape
deriving DecidableEq

/-- Embeds how `_parse_labelme_file` keeps only `rectangle` and `polygon` shapes
(others are skipped with a warning). -/
def lmParsedShapes (f : LmFile) : List LmShape :=
  f.shapes.filter (fun s => s.shape_type = "rectangle" ∨ s.shape_type = "polygon")

/-- Embeds `LabelmeToYoloConverter._rectangle_to_bbox`: exactly two points, else a
`ValueError` is raised (modelled as `none`, caught by the per-annotation
handler which skips the annotation). -/
def rectangle_to_bbox (pts : List (ℚ × ℚ)) : Option (ℚ × ℚ × ℚ × ℚ) :=
  match pts with
  | [(x1, y1), (x2, y2)] => some (min x1 x2, min y1 y2, max x1 x2, max y1 y2)
  | _ => none

/-- Embeds `LabelmeToYoloConverter._polygon_to_bbox`: min/max over the vertex
coordinates; an empty point list makes numpy raise (modelled as `none`). -/
def polygon_to_bbox (pts : List (ℚ × ℚ)) : Option (ℚ × ℚ × ℚ × ℚ) :=
  match pts with
  | [] => none
  | (x, y) :: rest =>
    some (rest.foldl (fun acc p =>
      (min acc.1 p.1, min acc.2.1 p.2, max acc.2.2.1 p.1, max acc.2.2.2 p.2))
      (x, y, x, y))

/-- Class collection of `LabelmeToYoloConverter.convert` (auto mapping):
sorted deduplicated labels of the shapes of the files that parse. -/
def lmClassMapping (inputs : List (String × Except String LmFile)) : List (String × ℕ) :=
  let all := (inputs.filterMap (fun p => p.2.toOption)).flatMap
    (fun f => (lmParsedShapes f).map (fun s => s.label))
  (sortStrings all.dedup).enum.map (fun p => (p.2, p.1))

/-- One shape of the detection branch of `LabelmeToYoloConverter.convert`:
unknown labels are skipped; rectangles and polygons are reduced to a
corner-pair box and emitted as the space-joined `str` line (`class_id`
then the four coordinates). -/
def lmDetectionLine (mapping : List (String × ℕ)) (W H : ℚ)
    (s : LmShape) : Option String :=
  match mapping.find? (fun p => p.1 = s.label) with
  | none => none
  | some p =>
    let bb := if s.shape_type = "rectangle" then rectangle_to_bbox s.points
      else if s.shape_type = "polygon" then polygon_to_bbox s.points
      else none
    bb.map (fun b => toString p.2 ++ " " ++
      joinSep " " ((corner_pair_to_yolo b W H).map pyFloatStr))

/-- Embeds `LabelmeToYoloConverter.convert` in `detection` format (auto mapping):
every file that parses yields `<stem>.txt` — joined lines plus a trailing
newline when nonempty, an empty file otherwise; a file whose parse raises
is skipped with an error logged and the loop continues. -/
def LabelmeToYoloConverter_convert (inputs : List (String × Except String LmFile)) :
    List (String × String) :=
  let mapping := lmClassMapping inputs
  inputs.filterMap (fun p =>
    match p.2 with
    | .error _ => none
    | .ok f =>
      let ls := (lmParsedShapes f).filterMap (lmDetectionLine mapping f.width f.height)
      some (p.1 ++ ".txt", if ls.isEmpty then "" else joinSep "\n" ls ++ "\n"))

/-! ## C4 and C5: empty-annotation label files and per-file parse failures -/

/-- Filenames produced by `appendLine`. -/
lemma appendLine_fst_mem (m : List (String × String)) (k v fn : String) :
    fn ∈ (appendLine m k v).map Prod.fst ↔ fn ∈ m.map Prod.fst ∨ fn = k := by
  rw [appendLine]
  split
  · next hany =>
    have hmap : (m.map (fun p => if p.1 = k then (p.1, p.2 ++ v) else p)).map
        Prod.fst = m.map Prod.fst := by
      rw [List.map_map]
      refine List.map_congr_left ?_
      intro p _
      by_cases h : p.1 = k <;> simp [h]
    rw [hmap]
    constructor
    · exact Or.inl
    · rintro (h | rfl)
      · exact h
      · obtain ⟨p, hp, hpk⟩ := List.any_eq_true.mp hany
        exact List.mem_map.mpr ⟨p, hp, (of_decide_eq_true hpk).symm ▸ rfl⟩
  · simp

/-- Every label file the pipeline COCO converter creates comes from some
annotation: the fold over annotations only ever adds the file of an
annotation whose image id resolves. -/
lemma cocoConvertMerged_files (d : CocoData) (fn : String)
    (h : fn ∈ (cocoConvertMerged d).map Prod.fst) :
    ∃ a, a ∈ d.annotations ∧ ∃ im,
      d.images.reverse.find? (fun im => im.id = a.image_id) = some im ∧
      fn = pathStem im.file_name ++ ".txt" := by
  rw [cocoConvertMerged] at h
  suffices H : ∀ (anns : List CocoAnn) (acc : List (String × String)),
      fn ∈ (anns.foldl (fun acc a =>
        match d.images.reverse.find? (fun im => im.id = a.image_id) with
        | none => acc
        | some im =>
          appendLine acc (pathStem im.file_name ++ ".txt")
            (toString a.category_id ++ " " ++
              joinSep " " ((convert_bbox_to_yolo a.bbox im.width im.height).map
                pyFloatStr) ++ "\n")) acc).map Prod.fst →
      fn ∈ acc.map Prod.fst ∨ ∃ a, a ∈ anns ∧ ∃ im,
        d.images.reverse.find? (fun im => im.id = a.image_id) = some im ∧
        fn = pathStem im.file_name ++ ".txt" by
    rcases H d.annotations [] h with h0 | h1
    · simp at h0
    · exact h1
  intro anns
  induction anns with
  | nil => intro acc h0; exact Or.inl h0
  | cons a anns ih =>
    intro acc h0
    rw [List.foldl_cons] at h0
    rcases hf : d.images.reverse.find? (fun im => im.id = a.image_id) with _ | im
    · rw [hf] at h0
      rcases ih _ h0 with h1 | ⟨a1, ha1, him⟩
      · exact Or.inl h1
      · exact Or.inr ⟨a1, List.mem_cons_of_mem _ ha1, him⟩
    · rw [hf] at h0
      rcases ih _ h0 with h1 | ⟨a1, ha1, him⟩
      · rcases (appendLine_fst_mem _ _ _ _).mp h1 with h2 | rfl
        · exact Or.inl h2
        · exact Or.inr ⟨a, List.mem_cons_self a anns, im, hf, rfl⟩
      · exact Or.inr ⟨a1, List.mem_cons_of_mem _ ha1, him⟩

/-- A COCO input whose second image has no annotation. -/
def cocoZeroAnn : CocoData :=
  ⟨[⟨1, "img1.jpg", 100, 100⟩, ⟨2, "img2.jpg", 200, 100⟩],
    [⟨1, 0, (10, 10, 20, 20)⟩],
    [⟨0, "tumor"⟩]⟩

/-- C4 counterexample: the pipeline COCO converter does not create a label
file for an image with zero annotations — on `cocoZeroAnn` it creates only
`img1.txt`, and `img2.txt` is absent. -/
theorem coco_no_empty_label_file :
    (CocoToYoloConverter_convert [Except.ok cocoZeroAnn]).map
        (fun l => l.map Prod.fst) = Except.ok ["img1.txt"] ∧
    "img2.txt" ∉ ((CocoToYoloConverter_convert
        [Except.ok cocoZeroAnn]).toOption.getD []).map Prod.fst :=
  ⟨by rfl, by decide⟩

/-- C4 (amended): the Pascal VOC and LabelMe converters create an empty
`<stem>.txt` for every parsed input file with zero retained annotations,
and the standalone COCO script writes a (possibly empty) file for every
image; but the pipeline COCO converter creates label files only from
annotations, so an image with zero annotations gets no label file. -/
theorem empty_annotation_label_files :
    (∀ (inputs : List (String × Except String VocFile)) (incDiff : Bool)
      (stem : String) (f : VocFile),
      (stem, Except.ok f) ∈ inputs →
      vocFileLines (vocClassMapping inputs) incDiff f = [] →
      (stem ++ ".txt", "") ∈ PascalVocToYoloConverter_convert inputs incDiff) ∧
    (∀ (inputs : List (String × Except String LmFile)) (stem : String) (f : LmFile),
      (stem, Except.ok f) ∈ inputs →
      (lmParsedShapes f).filterMap
        (lmDetectionLine (lmClassMapping inputs) f.width f.height) = [] →
      (stem ++ ".txt", "") ∈ LabelmeToYoloConverter_convert inputs) ∧
    (∀ (d : CocoData) (img : CocoImage), img ∈ d.images →
      d.annotations.filter (fun a => a.image_id = img.id) = [] →
      (pathStem img.file_name ++ ".txt", "") ∈ coco_to_yolo d) ∧
    (∀ (d : CocoData) (fn : String), fn ∈ (cocoConvertMerged d).map Prod.fst →
      ∃ a, a ∈ d.annotations ∧ ∃ im,
        d.images.reverse.find? (fun im => im.id = a.image_id) = some im ∧
        fn = pathStem im.file_name ++ ".txt") := by
  refine ⟨?_, ?_, ?_, fun d fn h => cocoConvertMerged_files d fn h⟩
  · intro inputs incDiff stem f hmem hlines
    rw [PascalVocToYoloConverter_convert]
    exact List.mem_filterMap.mpr ⟨(stem, Except.ok f), hmem, by simp [hlines]⟩
  · intro inputs stem f hmem hlines
    rw [LabelmeToYoloConverter_convert]
    exact List.mem_filterMap.mpr ⟨(stem, Except.ok f), hmem, by simp [hlines]⟩
  · intro d img hmem hfilter
    rw [coco_to_yolo]
    exact List.mem_map.mpr ⟨img, hmem, by rw [hfilter]; rfl⟩

/-- Witness for the amended C4 at concrete inputs: an empty VOC file and an
empty LabelMe file each produce an empty label file, the script produces an
empty `img2.txt` on `cocoZeroAnn`, and the only file the pipeline converter
produces on the merged data of `cocoZeroAnn` is traceable to its annotation. -/
theorem empty_annotation_label_files_witness :
    ("a.txt", "") ∈ PascalVocToYoloConverter_convert
      [("a", Except.ok ⟨100, 100, []⟩)] false ∧
    ("b.txt", "") ∈ LabelmeToYoloConverter_convert
      [("b", Except.ok ⟨100, 100, []⟩)] ∧
    ("img2.txt", "") ∈ coco_to_yolo cocoZeroAnn ∧
    (∃ a, a ∈ cocoZeroAnn.annotations ∧ ∃ im,
      cocoZeroAnn.images.reverse.find? (fun im => im.id = a.image_id) = some im ∧
      "img1.txt" = pathStem im.file_name ++ ".txt") := by
  refine ⟨?_, ?_, ?_, ?_⟩
  · exact empty_annotation_label_files.1 _ false "a" ⟨100, 100, []⟩
      (List.mem_singleton.mpr rfl) rfl
  · exact empty_annotation_label_files.2.1 _ "b" ⟨100, 100, []⟩
      (List.mem_singleton.mpr rfl) rfl
  · exact empty_annotation_label_files.2.2.1 cocoZeroAnn
      ⟨2, "img2.jpg", 200, 100⟩ (by decide) (by decide)
  · exact empty_annotation_label_files.2.2.2 cocoZeroAnn "img1.txt" (by decide)

/-- Lemma: `loadMerge` propagates the first parse error regardless of the
accumulator or of any files parsed before it. -/
lemma loadMerge_error (msg : String) (rest : List (Except String CocoData)) :
    ∀ (ds : List CocoData) (acc : CocoData),
      loadMerge acc (ds.map Except.ok ++ Except.error msg :: rest) =
        Except.error msg := by
  intro ds
  induction ds with
  | nil => intro acc; rfl
  | cons d ds ih => intro acc; exact ih (mergeStep acc d)

/-- C5 counterexample: with one well-formed COCO file and one unparsable
one, the pipeline COCO conversion aborts (re-raises) instead of skipping
the unparsable file. -/
theorem coco_unparsable_file_aborts :
    CocoToYoloConverter_convert
        [Except.ok cocoScenario, Except.error "malformed json"] =
      Except.error "malformed json" := by rfl

/-- C5 (amended): the Pascal VOC and LabelMe converters skip an unparsable
annotation file and convert exactly the files that parse (the run always
completes), but `CocoToYoloConverter._load_coco_annotations` re-raises on
the first unparsable JSON file, aborting the whole conversion. -/
theorem unparsable_file_handling :
    (∀ (ds : List CocoData) (msg : String) (rest : List (Except String CocoData)),
      load_coco_annotations (ds.map Except.ok ++ Except.error msg :: rest) =
        Except.error msg) ∧
    (∀ (inputs : List (String × Except String VocFile)) (incDiff : Bool),
      (PascalVocToYoloConverter_convert inputs incDiff).map Prod.fst =
        inputs.filterMap (fun p => match p.2 with
          | Except.ok _ => some (p.1 ++ ".txt")
          | Except.error _ => none)) ∧
    (∀ (inputs : List (String × Except String LmFile)),
      (LabelmeToYoloConverter_convert inputs).map Prod.fst =
        inputs.filterMap (fun p => match p.2 with
          | Except.ok _ => some (p.1 ++ ".txt")
          | Except.error _ => none)) := by
  refine ⟨fun ds msg rest => loadMerge_error msg rest ds _, ?_, ?_⟩
  · intro inputs incDiff
    rw [PascalVocToYoloConverter_convert, List.map_filterMap]
    refine List.filterMap_congr ?_
    intro p _
    rcases p with ⟨stem, pf⟩
    cases pf <;> rfl
  · intro inputs
    rw [LabelmeToYoloConverter_convert, List.map_filterMap]
    refine List.filterMap_congr ?_
    intro p _
    rcases p with ⟨stem, pf⟩
    cases pf <;> rfl

/-! ## Dataset splitter (`DatasetSplitter.split_by_ratio`) and CLI ratio
validation (`split_cmd.validate_ratios`) -/

/-- Embeds `DatasetSplitter.split_by_ratio`, up to the point where copying starts.
The in-place `random.shuffle` is modelled by passing in the already
shuffled file list (theorems quantify over permutations of the input).
The method first checks only `abs(total_ratio - 1.0) > 1e-6` (raising on
failure, modelled as `.error`), then collects the image files and raises if
none were found, then cuts `train = files[:train_count]`,
`val = files[train_count:train_count + val_count]`,
`test = files[train_count + val_count:]` with
`train_count = int(N * train_ratio)`, `val_count = int(N * val_ratio)`;
`.ok` marks the point after which directories are created and files
copied. -/
def ratio_split (image_files : List String)
    (train_ratio val_ratio test_ratio : ℚ) :
    Except String (List String × List String × List String) :=
  if fabs (fsub (fadd (fadd train_ratio val_ratio) test_ratio) 1) >
      Rat.divInt 1 1000000 then
    .error "ratio sum must be 1.0"
  else if image_files.isEmpty then
    .error "no image files found"
  else
    let n : ℕ := image_files.length
    let tc := pyTrunc (fmul (n : ℚ) train_ratio)
    let vc := pyTrunc (fmul (n : ℚ) val_ratio)
    .ok (pySlice image_files 0 tc, pySlice image_files tc (tc + vc),
      pySliceFrom image_files (tc + vc))

/-- Embeds `split_cmd.validate_ratios`: the CLI-side check (sum within `1e-6`,
`train > 0`, `val ≥ 0`, `test ≥ 0`). -/
def validate_ratios (train vr te : ℚ) : Bool :=
  if fabs (fsub (fadd (fadd train vr) te) 1) > Rat.divInt 1 1000000 then false
  else if train ≤ 0 ∨ vr < 0 ∨ te < 0 then false
  else true

/-- Returns `true` iff the outcome is `.ok`. -/
def exceptOk {ε α : Type} : Except ε α → Bool
  | .ok _ => true
  | .error _ => false

lemma fabs_sum_eq (t v s : ℚ) :
    fabs (fsub (fadd (fadd t v) s) 1) = |t + v + s - 1| := by
  rw [fadd_eq, fadd_eq, fsub_eq, fabs_eq]

lemma divInt_millionth : Rat.divInt 1 1000000 = (1 / 1000000 : ℚ) := by
  rw [Rat.divInt_eq_div]; norm_num

/-- For nonnegative cut points, the three Python slices reassemble the
whole list. -/
lemma pySlices_partition {α : Type} (l : List α) (a b : ℤ)
    (ha : 0 ≤ a) (hab : a ≤ b) :
    pySlice l 0 a ++ pySlice l a b ++ pySliceFrom l b = l := by
  have hb : 0 ≤ b := le_trans ha hab
  have h0 : pyIdx l.length 0 = 0 := by simp [pyIdx]
  have hA : pyIdx l.length a = min a.toNat l.length := by
    simp [pyIdx, not_lt.mpr ha]
  have hB : pyIdx l.length b = min b.toNat l.length := by
    simp [pyIdx, not_lt.mpr hb]
  have hab2 : min a.toNat l.length ≤ min b.toNat l.length :=
    min_le_min (Int.toNat_le_toNat hab) le_rfl
  rw [pySlice, pySlice, pySliceFrom, h0, hA, hB, List.drop_zero]
  have h1 : (l.take (min b.toNat l.length)).take (min a.toNat l.length) =
      l.take (min a.toNat l.length) := by
    rw [List.take_take, min_eq_left hab2]
  calc l.take (min a.toNat l.length) ++
        (l.take (min b.toNat l.length)).drop (min a.toNat l.length) ++
        l.drop (min b.toNat l.length)
      = ((l.take (min b.toNat l.length)).take (min a.toNat l.length) ++
        (l.take (min b.toNat l.length)).drop (min a.toNat l.length)) ++
        l.drop (min b.toNat l.length) := by rw [h1]
    _ = l.take (min b.toNat l.length) ++ l.drop (min b.toNat l.length) := by
        rw [List.take_append_drop]
    _ = l := List.take_append_drop _ _

lemma pyTrunc_of_nonneg {q : ℚ} (h : 0 ≤ q) : pyTrunc q = ⌊q⌋ := by
  rw [pyTrunc, if_pos h]

/-- C2: for every `Nodup` input file list, every shuffle of it, and every
ratio triple accepted by the precondition of the spec (sum within `1e-6` of 1,
`train > 0`, `val ≥ 0`, `test ≥ 0`), `split_by_ratio` assigns each input
file name to exactly one of train/val/test: the three outputs concatenate
to the shuffled list, they are pairwise disjoint, and each input name
occurs exactly once overall. -/
theorem ratio_split_partition (files shuffled : List String) (t v s : ℚ)
    (hnodup : files.Nodup) (hperm : shuffled.Perm files)
    (ht : 0 < t) (hv : 0 ≤ v) (hs : 0 ≤ s)
    (hsum : |t + v + s - 1| ≤ 1 / 1000000) (hne : files ≠ []) :
    ∃ tr va te, ratio_split shuffled t v s = .ok (tr, va, te) ∧
      tr ++ va ++ te = shuffled ∧ (tr ++ va ++ te).Perm files ∧
      tr.Disjoint va ∧ tr.Disjoint te ∧ va.Disjoint te ∧
      ∀ x ∈ files, (tr ++ va ++ te).count x = 1 := by
  have hcond : ¬(fabs (fsub (fadd (fadd t v) s) 1) > Rat.divInt 1 1000000) := by
    rw [fabs_sum_eq, divInt_millionth]; exact not_lt.mpr hsum
  have hne1 : shuffled ≠ [] := by
    intro h
    apply hne
    have hlen := hperm.length_eq
    rw [h] at hlen
    exact List.eq_nil_of_length_eq_zero hlen.symm
  have hne2 : shuffled.isEmpty = false := by
    cases shuffled
    · exact absurd rfl hne1
    · rfl
  set n : ℕ := shuffled.length with hn
  have htc0 : (0 : ℚ) ≤ fmul (n : ℚ) t := by
    rw [fmul_eq]; positivity
  have hvc0 : (0 : ℚ) ≤ fmul (n : ℚ) v := by
    rw [fmul_eq]; positivity
  set tc := pyTrunc (fmul (n : ℚ) t) with htc
  set vc := pyTrunc (fmul (n : ℚ) v) with hvc
  have htcn : 0 ≤ tc := by
    rw [htc, pyTrunc_of_nonneg htc0]
    exact Int.floor_nonneg.mpr htc0
  have hvcn : 0 ≤ vc := by
    rw [hvc, pyTrunc_of_nonneg hvc0]
    exact Int.floor_nonneg.mpr hvc0
  refine ⟨pySlice shuffled 0 tc, pySlice shuffled tc (tc + vc),
    pySliceFrom shuffled (tc + vc), ?_, ?_⟩
  · rw [ratio_split, if_neg hcond, hne2]
    rfl
  · have heq : pySlice shuffled 0 tc ++ pySlice shuffled tc (tc + vc) ++
        pySliceFrom shuffled (tc + vc) = shuffled :=
      pySlices_partition shuffled tc (tc + vc) htcn (by omega)
    have hperm2 : (pySlice shuffled 0 tc ++ pySlice shuffled tc (tc + vc) ++
        pySliceFrom shuffled (tc + vc)).Perm files := by
      rw [heq]; exact hperm
    have hnodup2 : (pySlice shuffled 0 tc ++ pySlice shuffled tc (tc + vc) ++
        pySliceFrom shuffled (tc + vc)).Nodup := by
      rw [heq]; exact hperm.nodup_iff.mpr hnodup
    obtain ⟨h12, h3, hd3⟩ := List.nodup_append.mp hnodup2
    obtain ⟨h1, h2, hd12⟩ := List.nodup_append.mp h12
    refine ⟨heq, hperm2, hd12, ?_, ?_, ?_⟩
    · intro x hx1 hx3
      exact hd3 (List.mem_append_left _ hx1) hx3
    · intro x hx2 hx3
      exact hd3 (List.mem_append_right _ hx2) hx3
    · intro x hx
      rw [hperm2.count_eq]
      exact List.count_eq_one_of_mem hnodup hx

/-- Witness for C2 at a concrete three-file input and shuffle. -/
theorem ratio_split_partition_witness :
    ∃ tr va te,
      ratio_split ["b.jpg", "c.jpg", "a.jpg"] (4 / 5) (1 / 10) (1 / 10) =
        .ok (tr, va, te) ∧
      tr ++ va ++ te = ["b.jpg", "c.jpg", "a.jpg"] ∧
      (tr ++ va ++ te).Perm ["a.jpg", "b.jpg", "c.jpg"] ∧
      tr.Disjoint va ∧ tr.Disjoint te ∧ va.Disjoint te ∧
      ∀ x ∈ ["a.jpg", "b.jpg", "c.jpg"], (tr ++ va ++ te).count x = 1 :=
  ratio_split_partition ["a.jpg", "b.jpg", "c.jpg"] ["b.jpg", "c.jpg", "a.jpg"]
    (4 / 5) (1 / 10) (1 / 10) (by decide) (by decide)
    (by norm_num) (by norm_num) (by norm_num) (by norm_num) (by decide)

/-- C3 counterexample: `split_by_ratio` does not fail fast on the ratio
triple `(1.1, -0.1, 0.0)` — the sum is exactly 1 so the only check in the
method passes, and the run proceeds to create directories and copy files
(`.ok`), assigning every file to train. -/
theorem ratio_split_no_fail_fast_on_negative :
    ratio_split ["a.jpg", "b.jpg"] (11 / 10) (-(1 / 10)) 0 =
      Except.ok (["a.jpg", "b.jpg"], [], []) := by
  have h1 : (11 / 10 : ℚ) = Rat.divInt 11 10 := by
    rw [Rat.divInt_eq_div]; norm_num
  have h2 : (-(1 / 10) : ℚ) = Rat.divInt (-1) 10 := by
    rw [Rat.divInt_eq_div]; norm_num
  have h3 : (0 : ℚ) = Rat.divInt 0 1 := by
    rw [Rat.divInt_eq_div]; norm_num
  rw [h1, h2, h3]
  rfl

/-- C3 (amended): `DatasetSplitter.split_by_ratio` itself raises before any
I/O exactly when the three ratios do not sum to 1 within `1e-6`; the
non-negativity and `train > 0` requirements are enforced only by the
CLI-side `validate_ratios` (which exits before invoking the splitter), not
by the method itself. -/
theorem ratio_split_precondition (t v s : ℚ) (files : List String)
    (hne : files ≠ []) :
    ((exceptOk (ratio_split files t v s) = true) ↔ |t + v + s - 1| ≤ 1 / 1000000) ∧
    (validate_ratios t v s = true ↔
      (|t + v + s - 1| ≤ 1 / 1000000 ∧ 0 < t ∧ 0 ≤ v ∧ 0 ≤ s)) := by
  have hne2 : files.isEmpty = false := by
    cases files
    · exact absurd rfl hne
    · rfl
  constructor
  · rw [ratio_split, fabs_sum_eq, divInt_millionth]
    split
    · next h =>
      simp only [exceptOk]
      exact ⟨fun hc => absurd hc (by simp), fun hc => absurd hc (not_le.mpr h)⟩
    · next h =>
      rw [hne2]
      simp only [exceptOk]
      exact ⟨fun _ => not_lt.mp h, fun _ => rfl⟩
  · rw [validate_ratios, fabs_sum_eq, divInt_millionth]
    split
    · next h =>
      constructor
      · intro hc; exact absurd hc (by simp)
      · intro ⟨hc, _⟩; exact absurd hc (not_le.mpr h)
    · next h =>
      split
      · next h2 =>
        constructor
        · intro hc; exact absurd hc (by simp)
        · intro ⟨_, ht, hv, hs⟩
          rcases h2 with h2 | h2 | h2
          · exact absurd ht (not_lt.mpr h2)
          · exact absurd hv (not_le.mpr h2)
          · exact absurd hs (not_le.mpr h2)
      · next h2 =>
        push_neg at h2
        exact ⟨fun _ => ⟨not_lt.mp h, h2.1, h2.2.1, h2.2.2⟩, fun _ => rfl⟩

/-- Witness for the amended C3 at the counterexample triple. -/
theorem ratio_split_precondition_witness :
    ((exceptOk (ratio_split ["a.jpg"] (11 / 10) (-(1 / 10)) 0) = true) ↔
      |(11 / 10 : ℚ) + -(1 / 10) + 0 - 1| ≤ 1 / 1000000) ∧
    (validate_ratios (11 / 10) (-(1 / 10)) 0 = true ↔
      (|(11 / 10 : ℚ) + -(1 / 10) + 0 - 1| ≤ 1 / 1000000 ∧
        (0 : ℚ) < 11 / 10 ∧ (0 : ℚ) ≤ -(1 / 10) ∧ (0 : ℚ) ≤ 0)) :=
  ratio_split_precondition (11 / 10) (-(1 / 10)) 0 ["a.jpg"] (by decide)

/-- Floor of `N * (a/b)` over `ℚ` is Nat division `a*N/b`. -/
lemma floor_nat_mul_div (N a b : ℕ) :
    ⌊(N : ℚ) * ((a : ℚ) / (b : ℚ))⌋ = ((a * N / b : ℕ) : ℤ) := by
  have h : (N : ℚ) * ((a : ℚ) / (b : ℚ)) = ((a * N : ℕ) : ℚ) / ((b : ℕ) : ℚ) := by
    push_cast; ring
  rw [h, Rat.floor_natCast_div_natCast]
  exact (Int.ofNat_div (a * N) b).symm

/-- C8: with the default ratios `(0.8, 0.1, 0.1)` (exact rationals
`4/5, 1/10, 1/10`), `split_by_ratio` produces
`len(train) = ⌊0.8·N⌋`, `len(val) = ⌊0.1·N⌋` and
`len(test) = N - len(train) - len(val)`. -/
theorem ratio_split_default_counts (files shuffled : List String)
    (hne : files ≠ []) (hperm : shuffled.Perm files) :
    ∃ tr va te,
      ratio_split shuffled (4 / 5) (1 / 10) (1 / 10) = .ok (tr, va, te) ∧
      tr.length = 4 * files.length / 5 ∧
      va.length = files.length / 10 ∧
      te.length = files.length - tr.length - va.length := by
  have hne1 : shuffled ≠ [] := by
    intro h
    apply hne
    have hlen := hperm.length_eq
    rw [h] at hlen
    exact List.eq_nil_of_length_eq_zero hlen.symm
  have hne2 : shuffled.isEmpty = false := by
    cases shuffled
    · exact absurd rfl hne1
    · rfl
  have hcond : ¬(fabs (fsub (fadd (fadd (4 / 5 : ℚ) (1 / 10)) (1 / 10)) 1) >
      Rat.divInt 1 1000000) := by
    rw [fabs_sum_eq, divInt_millionth]
    norm_num
  set n : ℕ := shuffled.length with hn
  have hnf : files.length = n := by rw [hn, hperm.length_eq]
  have h45 : ((4 : ℚ) / 5) = ((4 : ℕ) : ℚ) / ((5 : ℕ) : ℚ) := by norm_num
  have h110 : ((1 : ℚ) / 10) = ((1 : ℕ) : ℚ) / ((10 : ℕ) : ℚ) := by norm_num
  have htc : pyTrunc (fmul (n : ℚ) (4 / 5)) = ((4 * n / 5 : ℕ) : ℤ) := by
    rw [fmul_eq, pyTrunc_of_nonneg (by positivity), h45, floor_nat_mul_div]
  have hvc : pyTrunc (fmul (n : ℚ) (1 / 10)) = ((n / 10 : ℕ) : ℤ) := by
    rw [fmul_eq, pyTrunc_of_nonneg (by positivity), h110, floor_nat_mul_div,
      one_mul]
  have htn : 4 * n / 5 ≤ n := by omega
  have hbn : 4 * n / 5 + n / 10 ≤ n := by omega
  have hcast : (((4 * n / 5 : ℕ) : ℤ) + ((n / 10 : ℕ) : ℤ)) =
      (((4 * n / 5 + n / 10 : ℕ) : ℤ)) := by push_cast; ring
  have hidx : ∀ k : ℕ, pyIdx shuffled.length ((k : ℕ) : ℤ) = min k n := by
    intro k
    rw [pyIdx, if_neg (not_lt.mpr (Int.natCast_nonneg k)), Int.toNat_natCast, hn]
  have h0 : pyIdx shuffled.length 0 = 0 := by simp [pyIdx]
  have hA : pyIdx shuffled.length ((4 * n / 5 : ℕ) : ℤ) = 4 * n / 5 := by
    rw [hidx, min_eq_left htn]
  have hB : pyIdx shuffled.length (((4 * n / 5 : ℕ) : ℤ) + ((n / 10 : ℕ) : ℤ)) =
      4 * n / 5 + n / 10 := by
    rw [hcast, hidx, min_eq_left hbn]
  have hlen : shuffled.length = n := hn.symm
  refine ⟨pySlice shuffled 0 (pyTrunc (fmul (n : ℚ) (4 / 5))),
    pySlice shuffled (pyTrunc (fmul (n : ℚ) (4 / 5)))
      (pyTrunc (fmul (n : ℚ) (4 / 5)) + pyTrunc (fmul (n : ℚ) (1 / 10))),
    pySliceFrom shuffled
      (pyTrunc (fmul (n : ℚ) (4 / 5)) + pyTrunc (fmul (n : ℚ) (1 / 10))),
    ?_, ?_, ?_, ?_⟩
  · rw [ratio_split, if_neg hcond, hne2]
    rfl
  · rw [pySlice, htc, h0, hA, List.drop_zero, List.length_take, hlen,
      min_eq_left htn, hnf]
  · rw [pySlice, htc, hvc, hA, hB, List.length_drop, List.length_take, hlen,
      min_eq_left hbn, hnf]
    omega
  · rw [pySliceFrom, pySlice, pySlice, htc, hvc, h0, hA, hB, List.length_drop,
      List.drop_zero, List.length_take, List.length_drop, List.length_take,
      hlen, min_eq_left htn, min_eq_left hbn, hnf]
    omega

/-- Witness for C8 on ten concrete files: the split is 8/1/1. -/
theorem ratio_split_default_counts_witness :
    ∃ tr va te,
      ratio_split ["f1", "f2", "f3", "f4", "f5", "f6", "f7", "f8", "f9", "f10"]
        (4 / 5) (1 / 10) (1 / 10) = .ok (tr, va, te) ∧
      tr.length = 4 * 10 / 5 ∧ va.length = 10 / 10 ∧
      te.length = 10 - tr.length - va.length := by
  have h := ratio_split_default_counts
    ["f1", "f2", "f3", "f4", "f5", "f6", "f7", "f8", "f9", "f10"]
    ["f1", "f2", "f3", "f4", "f5", "f6", "f7", "f8", "f9", "f10"]
    (by decide) (List.Perm.refl _)
  simpa using h

/-! ## Dataset validation (`utils/dataset_validation.py`,
`verify_dataset_config`) -/

/-- One structured violation entry
(`{"image_path": ..., "label_path": ..., "error_message": ...}`). -/
structure Violation where
  image_path : Option String
  label_path : Option String
  error_message : String
deriving DecidableEq

/-- The numeric checks of one label line (the `try` block): Python
`int(parts[0])` (a parse failure is caught and recorded), class id within
`[0, nc)` (`class_id < 0 or class_id >= nc`), then
`list(map(float, parts[1:]))` (a parse failure is caught and recorded),
then the `[0, 1]` range check on every coordinate for the detection and
segmentation tasks. -/
def checkNumeric (task : String) (nc : ℕ) (ip lp : String)
    (parts : List String) : Option Violation :=
  match pyParseInt (parts.headD "") with
  | none => some ⟨some ip, some lp, "label content parse failure"⟩
  | some cid =>
    if cid < 0 ∨ (nc : ℤ) ≤ cid then
      some ⟨some ip, some lp, "class id out of range"⟩
    else
      match parseFloats (parts.drop 1) with
      | none => some ⟨some ip, some lp, "label content parse failure"⟩
      | some coords =>
        if task = "detection" then
          if coords.all (fun q => decide ((0 : ℚ) ≤ q) && decide (q ≤ 1)) then
            none
          else some ⟨some ip, some lp, "detection coords out of range"⟩
        else if task = "segmentation" then
          if coords.all (fun q => decide ((0 : ℚ) ≤ q) && decide (q ≤ 1)) then
            none
          else some ⟨some ip, some lp, "segmentation coords out of range"⟩
        else none

/-- The per-line check of `verify_dataset_config`: token-count check for the
declared task (5 for detection; at least 7 and odd for segmentation), then
the numeric checks.  At most one violation is recorded per line (a failed
check `continue`s). -/
def verifyLabelLine (task : String) (nc : ℕ) (ip lp : String)
    (line : String) : Option Violation :=
  let parts := pySplitWs line
  if task = "detection" then
    if parts.length ≠ 5 then
      some ⟨some ip, some lp, "detection label needs 5 fields"⟩
    else checkNumeric task nc ip lp parts
  else if task = "segmentation" then
    if parts.length < 7 ∨ (parts.length - 1) % 2 ≠ 0 then
      some ⟨some ip, some lp, "segmentation label format error"⟩
    else checkNumeric task nc ip lp parts
  else checkNumeric task nc ip lp parts

/-- The directory tree the validator scans, abstracted: whether the split
image directory exists, its (sorted, image-only) listing, and the lines of
each label file (`none`: the file does not exist). -/
structure SplitFS where
  dirOk : String → Bool
  listImages : String → List String
  label : String → Option (List String)

/-- Drop the last `/`-component of a path (Python `Path(p).parent`). -/
def parentDir (p : String) : String :=
  joinSep "/" (splitString (fun c => c = '/') p).dropLast

/-- Computes `img_path.parent.parent / "labels" / (img_path.stem + ".txt")`. -/
def labelPathFor (splitPath img : String) : String :=
  parentDir splitPath ++ "/labels/" ++ pathStem img ++ ".txt"

/-- Per-image scan: a missing label file is one violation; otherwise every
stripped nonblank line is checked and each violating line contributes one
entry (the scan never raises and never stops early). -/
def verifyImage (task : String) (nc : ℕ) (fs : SplitFS) (sp img : String) :
    List Violation :=
  let ip := sp ++ "/" ++ img
  let lp := labelPathFor sp img
  match fs.label lp with
  | none => [⟨some ip, some lp, "label file missing"⟩]
  | some raw =>
    ((raw.map pyStrip).filter (fun l => l ≠ "")).filterMap
      (verifyLabelLine task nc ip lp)

/-- Per-split scan (`FULL` mode): a missing or empty image directory is one
violation; otherwise every image of the listing is scanned. -/
def verifySplit (task : String) (nc : ℕ) (fs : SplitFS) (sp : String) :
    List Violation :=
  if fs.dirOk sp = false then [⟨some sp, none, "image directory missing"⟩]
  else
    let imgs := fs.listImages sp
    if imgs.isEmpty then [⟨some sp, none, "image directory empty"⟩]
    else imgs.flatMap (verifyImage task nc fs sp)

/-- The dataset descriptor (`data.yaml`) as the validator reads it:
`nc`, `names`, and the optional split paths (`data_cfg.get(split)`; a
missing or falsy entry is modelled as `none`). -/
structure DataCfg where
  nc : ℕ
  names : List String
  train : Option String
  val : Option String
  test : Option String

/-- Embeds `verify_dataset_config` (in `FULL` mode, on a descriptor that already
parsed): the `len(names) != nc` check contributes one entry, then the
splits `train`, `val`, `test` are scanned in order, a split whose path is
not defined being skipped with a warning; the function returns
`(len(invalid_data) == 0, invalid_data)`. -/
def verify_dataset_config (cfg : DataCfg) (fs : SplitFS) (task : String) :
    Bool × List Violation :=
  let base := if cfg.names.length ≠ cfg.nc then
      [⟨none, none, "nc does not match names"⟩] else []
  let viols := base ++
    ([cfg.train, cfg.val, cfg.test].filterMap id).flatMap
      (verifySplit task cfg.nc fs)
  (viols.isEmpty, viols)

/-- The well-formedness of one detection label line exactly as the claim
states it: exactly 5 whitespace tokens, an integer class id in `[0, nc)`,
and four parseable coordinates all within `[0, 1]`. -/
def goodDetectionLine (nc : ℕ) (line : String) : Prop :=
  (pySplitWs line).length = 5 ∧
  ∃ cid, pyParseInt ((pySplitWs line).headD "") = some cid ∧
    0 ≤ cid ∧ cid < (nc : ℤ) ∧
    ∃ coords, parseFloats ((pySplitWs line).drop 1) = some coords ∧
      ∀ q ∈ coords, 0 ≤ q ∧ q ≤ 1

/-- Reduction of `verifyLabelLine` for the detection task. -/
lemma verifyLabelLine_detection (nc : ℕ) (ip lp line : String) :
    verifyLabelLine "detection" nc ip lp line =
      if (pySplitWs line).length ≠ 5 then
        some ⟨some ip, some lp, "detection label needs 5 fields"⟩
      else checkNumeric "detection" nc ip lp (pySplitWs line) := rfl

/-- Reduction of `checkNumeric` for the detection task. -/
lemma checkNumeric_detection (nc : ℕ) (ip lp : String) (parts : List String) :
    checkNumeric "detection" nc ip lp parts =
      match pyParseInt (parts.headD "") with
      | none => some ⟨some ip, some lp, "label content parse failure"⟩
      | some cid =>
        if cid < 0 ∨ (nc : ℤ) ≤ cid then
          some ⟨some ip, some lp, "class id out of range"⟩
        else
          match parseFloats (parts.drop 1) with
          | none => some ⟨some ip, some lp, "label content parse failure"⟩
          | some coords =>
            if coords.all (fun q => decide ((0 : ℚ) ≤ q) && decide (q ≤ 1)) then
              none
            else some ⟨some ip, some lp, "detection coords out of range"⟩ := rfl

/-- C9: in detection mode the validator flags exactly the label lines
violating one of the three checks (5 tokens, integer class id in
`[0, nc)`, all coordinates parseable and within `[0, 1]`); each recorded
entry carries the image and label paths; the line `"0 1.5 0.5 0.2 0.2"` is
flagged and `"0 0.5 0.5 0.2 0.2"` is not; `passed` is `true` iff the
collected violation list is empty; and the scan is exhaustive: with the
directory present and nonempty every image is scanned, and with the label
file present every stripped nonblank line is checked. -/
theorem verify_dataset_config_detection (nc : ℕ) (ip lp : String) :
    (∀ line, verifyLabelLine "detection" nc ip lp line = none ↔
      goodDetectionLine nc line) ∧
    (∀ line v, verifyLabelLine "detection" nc ip lp line = some v →
      v.image_path = some ip ∧ v.label_path = some lp) ∧
    (1 ≤ nc →
      verifyLabelLine "detection" nc ip lp "0 1.5 0.5 0.2 0.2" ≠ none ∧
      verifyLabelLine "detection" nc ip lp "0 0.5 0.5 0.2 0.2" = none) ∧
    (∀ (cfg : DataCfg) (fs : SplitFS),
      (verify_dataset_config cfg fs "detection").1 = true ↔
      (verify_dataset_config cfg fs "detection").2 = []) ∧
    (∀ (fs : SplitFS) (sp : String), fs.dirOk sp = true →
      fs.listImages sp ≠ [] →
      verifySplit "detection" nc fs sp =
        (fs.listImages sp).flatMap (verifyImage "detection" nc fs sp)) ∧
    (∀ (fs : SplitFS) (sp img : String) (raw : List String),
      fs.label (labelPathFor sp img) = some raw →
      verifyImage "detection" nc fs sp img =
        ((raw.map pyStrip).filter (fun l => l ≠ "")).filterMap
          (verifyLabelLine "detection" nc (sp ++ "/" ++ img)
            (labelPathFor sp img))) := by
  refine ⟨?_, ?_, ?_, ?_, ?_, ?_⟩
  · intro line
    rw [verifyLabelLine_detection, goodDetectionLine]
    by_cases h5 : (pySplitWs line).length = 5
    · rw [if_neg (not_not_intro h5), checkNumeric_detection]
      rcases hint : pyParseInt ((pySplitWs line).headD "") with _ | cid
      · dsimp only
        constructor
        · intro hh; exact absurd hh (by simp)
        · rintro ⟨-, c2, hc2, -⟩
          exact absurd hc2 (by simp)
      · dsimp only
        by_cases hcls : cid < 0 ∨ (nc : ℤ) ≤ cid
        · rw [if_pos hcls]
          constructor
          · intro hh; exact absurd hh (by simp)
          · rintro ⟨-, c2, hc2, hc3, hc4, -⟩
            injection hc2 with hc2
            subst hc2
            rcases hcls with hcls | hcls
            · exact absurd hc3 (not_le.mpr hcls)
            · exact absurd hc4 (not_lt.mpr hcls)
        · rw [if_neg hcls]
          push_neg at hcls
          rcases hfl : parseFloats ((pySplitWs line).drop 1) with _ | coords
          · dsimp only
            constructor
            · intro hh; exact absurd hh (by simp)
            · rintro ⟨-, c2, hc2, -, -, qs, hqs, -⟩
              exact absurd hqs (by simp)
          · dsimp only
            by_cases hall : coords.all
                (fun q => decide ((0 : ℚ) ≤ q) && decide (q ≤ 1)) = true
            · rw [if_pos hall]
              constructor
              · intro _
                refine ⟨h5, cid, rfl, hcls.1, hcls.2, coords, rfl, ?_⟩
                intro q hq
                have hb := List.all_eq_true.mp hall q hq
                simp only [Bool.and_eq_true, decide_eq_true_eq] at hb
                exact hb
              · intro _; rfl
            · rw [if_neg hall]
              constructor
              · intro hh; exact absurd hh (by simp)
              · rintro ⟨-, c2, hc2, -, -, qs, hqs, hrange⟩
                injection hc2 with hceq
                subst hceq
                injection hqs with hqs
                subst hqs
                refine absurd (List.all_eq_true.mpr ?_) hall
                intro q hq
                simp only [Bool.and_eq_true, decide_eq_true_eq]
                exact hrange q hq
    · rw [if_pos h5]
      constructor
      · intro hh; exact absurd hh (by simp)
      · rintro ⟨hh, -⟩; exact absurd hh h5
  · intro line v hv
    rw [verifyLabelLine_detection] at hv
    split at hv
    · injection hv with hv
      subst hv
      exact ⟨rfl, rfl⟩
    · rw [checkNumeric_detection] at hv
      split at hv
      · injection hv with hv; subst hv; exact ⟨rfl, rfl⟩
      · split at hv
        · injection hv with hv; subst hv; exact ⟨rfl, rfl⟩
        · split at hv
          · injection hv with hv; subst hv; exact ⟨rfl, rfl⟩
          · split at hv
            · exact absurd hv (by simp)
            · injection hv with hv; subst hv; exact ⟨rfl, rfl⟩
  · intro hnc
    have h1 : verifyLabelLine "detection" nc ip lp "0 1.5 0.5 0.2 0.2" =
        some ⟨some ip, some lp, "detection coords out of range"⟩ := by
      rw [verifyLabelLine_detection]
      rw [if_neg (by decide)]
      rw [checkNumeric_detection]
      have hparse : pyParseInt (((pySplitWs "0 1.5 0.5 0.2 0.2")).headD "") =
          some 0 := by decide
      rw [hparse]
      dsimp only
      rw [if_neg (by omega)]
      have hfl : parseFloats ((pySplitWs "0 1.5 0.5 0.2 0.2").drop 1) =
          some [Rat.divInt 3 2, Rat.divInt 1 2, Rat.divInt 1 5, Rat.divInt 1 5] := by
        decide
      rw [hfl]
      dsimp only
      rw [if_neg (by decide)]
    have h2 : verifyLabelLine "detection" nc ip lp "0 0.5 0.5 0.2 0.2" = none := by
      rw [verifyLabelLine_detection]
      rw [if_neg (by decide)]
      rw [checkNumeric_detection]
      have hparse : pyParseInt (((pySplitWs "0 0.5 0.5 0.2 0.2")).headD "") =
          some 0 := by decide
      rw [hparse]
      dsimp only
      rw [if_neg (by omega)]
      have hfl : parseFloats ((pySplitWs "0 0.5 0.5 0.2 0.2").drop 1) =
          some [Rat.divInt 1 2, Rat.divInt 1 2, Rat.divInt 1 5, Rat.divInt 1 5] := by
        decide
      rw [hfl]
      dsimp only
      rw [if_pos (by decide)]
    rw [h1, h2]
    exact ⟨by simp, rfl⟩
  · intro cfg fs
    rw [verify_dataset_config]
    exact List.isEmpty_iff
  · intro fs sp hdir hne
    have himgs : (fs.listImages sp).isEmpty = false := by
      rcases h : fs.listImages sp with _ | ⟨a, l⟩
      · exact absurd h hne
      · rfl
    rw [verifySplit, hdir]
    simp [himgs]
  · intro fs sp img raw hlabel
    rw [verifyImage, hlabel]

/-- A one-image demo filesystem for the validator witnesses. -/
def fsDemo : SplitFS :=
  ⟨fun _ => true, fun _ => ["a.jpg"], fun _ => some ["0 0.5 0.5 0.2 0.2"]⟩

/-- A demo descriptor with one class and one split. -/
def cfgDemo : DataCfg := ⟨1, ["tumor"], some "ds/train/images", none, none⟩

/-- Witness for C9 with `nc = 1` on concrete paths, lines, a concrete
filesystem and descriptor. -/
theorem verify_dataset_config_detection_witness :
    (verifyLabelLine "detection" 1 "d/images/a.jpg" "d/labels/a.txt"
        "0 0.5 0.5 0.2 0.2" = none ↔
      goodDetectionLine 1 "0 0.5 0.5 0.2 0.2") ∧
    ((⟨some "d/images/a.jpg", some "d/labels/a.txt",
        "detection coords out of range"⟩ : Violation).image_path =
          some "d/images/a.jpg" ∧
      (⟨some "d/images/a.jpg", some "d/labels/a.txt",
        "detection coords out of range"⟩ : Violation).label_path =
          some "d/labels/a.txt") ∧
    (verifyLabelLine "detection" 1 "d/images/a.jpg" "d/labels/a.txt"
        "0 1.5 0.5 0.2 0.2" ≠ none ∧
      verifyLabelLine "detection" 1 "d/images/a.jpg" "d/labels/a.txt"
        "0 0.5 0.5 0.2 0.2" = none) ∧
    ((verify_dataset_config cfgDemo fsDemo "detection").1 = true ↔
      (verify_dataset_config cfgDemo fsDemo "detection").2 = []) ∧
    (verifySplit "detection" 1 fsDemo "ds/train/images" =
      (fsDemo.listImages "ds/train/images").flatMap
        (verifyImage "detection" 1 fsDemo "ds/train/images")) ∧
    (verifyImage "detection" 1 fsDemo "ds/train/images" "a.jpg" =
      ((["0 0.5 0.5 0.2 0.2"].map pyStrip).filter (fun l => l ≠ "")).filterMap
        (verifyLabelLine "detection" 1 ("ds/train/images" ++ "/" ++ "a.jpg")
          (labelPathFor "ds/train/images" "a.jpg"))) := by
  have h := verify_dataset_config_detection 1 "d/images/a.jpg" "d/labels/a.txt"
  have h2 := verify_dataset_config_detection 1 "x" "y"
  refine ⟨h.1 "0 0.5 0.5 0.2 0.2", ?_, h.2.2.1 (le_refl 1),
    h2.2.2.2.1 cfgDemo fsDemo, h2.2.2.2.2.1 fsDemo "ds/train/images" rfl
      (by decide), h2.2.2.2.2.2 fsDemo "ds/train/images" "a.jpg"
      ["0 0.5 0.5 0.2 0.2"] rfl⟩
  exact (verify_dataset_config_detection 1 "d/images/a.jpg"
    "d/labels/a.txt").2.1 "0 1.5 0.5 0.2 0.2" _ (by decide)

/-- C10: a descriptor with `nc = len(names)` and none of the keys `train`,
`val`, `test` validates vacuously: every absent split is skipped with a
warning, no violation is recorded, and the result is `(True, [])`. -/
theorem verify_dataset_config_no_splits (cfg : DataCfg) (fs : SplitFS)
    (task : String) (htrain : cfg.train = none) (hval : cfg.val = none)
    (htest : cfg.test = none) (hnc : cfg.names.length = cfg.nc) :
    verify_dataset_config cfg fs task = (true, []) := by
  rw [verify_dataset_config, htrain, hval, htest, if_neg (not_not_intro hnc)]
  rfl

/-- Witness for C10 on a concrete descriptor with no split keys. -/
theorem verify_dataset_config_no_splits_witness :
    verify_dataset_config ⟨1, ["tumor"], none, none, none⟩ fsDemo
      "detection" = (true, []) :=
  verify_dataset_config_no_splits ⟨1, ["tumor"], none, none, none⟩ fsDemo
    "detection" rfl rfl rfl rfl
